import Mathlib

/-!
A shallow embedding of the request-parsing and path-resolution pipeline of a
minimal static-file HTTP server (source files `request.rs`, `helpers.rs`),
together with proofs of the specification claims about it.

Modelling conventions:
* A connection's incoming byte stream has already been cut into lines by
  `BufRead::lines`; we model the iterator as a `List (Except String String)`
  (each item an `io::Result<String>`, error payload a message string).
* Filesystem paths are component lists (`List String`), as produced by
  `PathBuf` component iteration; `Path::starts_with` is component-wise
  prefix, i.e. `List.isPrefixOf`.
* The filesystem itself is a finite map from absolute component paths to
  nodes (directory, regular file with byte content, or symlink with an
  absolute target).  `std::fs::canonicalize` (POSIX `realpath`) is modelled
  by `canonAux`, which resolves `.`/`..` and symlinks with a fuel bound and
  requires every traversed component to exist.
-/

/-- Rust `char::is_ascii_whitespace`: space, horizontal tab, line feed,
form feed, carriage return. -/
def isAsciiWs (c : Char) : Bool :=
  c = ' ' || c = '\t' || c = '\n' || c = '\u000C' || c = '\r'

/-- The Unicode `White_Space` code points, the set trimmed by Rust
`str::trim` (via `char::is_whitespace`). -/
def rustWsChars : List Char :=
  ['\t', '\n', '\u000B', '\u000C', '\r', ' ', '\u0085', '\u00A0', '\u1680',
   '\u2000', '\u2001', '\u2002', '\u2003', '\u2004', '\u2005', '\u2006',
   '\u2007', '\u2008', '\u2009', '\u200A', '\u2028', '\u2029', '\u202F',
   '\u205F', '\u3000']

/-- Rust `str::trim`: remove leading and trailing Unicode whitespace. -/
def rustTrim (s : String) : String :=
  String.mk
    (((s.toList.dropWhile (rustWsChars.contains ·)).reverse.dropWhile
        (rustWsChars.contains ·)).reverse)

/-- Split a character list at every separator (a character satisfying
`p`), keeping empty groups — the semantics of Rust `str::split` with a
`char` pattern, at the character level. -/
def splitChars (p : Char → Bool) : List Char → List (List Char)
  | [] => [[]]
  | c :: cs =>
    if p c then [] :: splitChars p cs
    else
      match splitChars p cs with
      | [] => [[c]]
      | g :: gs => (c :: g) :: gs

/-- Rust `str::split` with a character-class pattern. -/
def strSplit (p : Char → Bool) (s : String) : List String :=
  (splitChars p s.toList).map String.mk

/-- Rust `str::split_ascii_whitespace`: split on runs of ASCII whitespace,
yielding no empty tokens (splitting on each whitespace character and
dropping the empty groups). -/
def split_ascii_whitespace (s : String) : List String :=
  (strSplit isAsciiWs s).filter (fun t => t ≠ "")

/-- `RequestError` from `request.rs`.  The Rust variant `Io(io::Error)` is
rendered `ioError` (carrying the error message). -/
inductive RequestError where
  | emptyRequest : RequestError
  | invalidLength : RequestError
  | ioError (e : String) : RequestError
  | invalidHeader : RequestError
  | invalidURL : RequestError
deriving DecidableEq

instance {ε α : Type} [DecidableEq ε] [DecidableEq α] :
    DecidableEq (Except ε α) := fun a b =>
  match a, b with
  | .ok x, .ok y =>
    if h : x = y then .isTrue (by rw [h]) else .isFalse (by simp [h])
  | .error x, .error y =>
    if h : x = y then .isTrue (by rw [h]) else .isFalse (by simp [h])
  | .ok _, .error _ => .isFalse (by simp)
  | .error _, .ok _ => .isFalse (by simp)

/-- The `Request` struct from `request.rs`. -/
structure Request where
  url : String
  method : String
  version : String
deriving DecidableEq

/-- `Request::new` from `request.rs`, with the stream's line iterator
already materialised as a list.  `lines().next()` is `input.head?`; the
`?` on its payload maps an `Err` to `RequestError::Io`. -/
def Request.new (input : List (Except String String)) :
    Except RequestError Request :=
  match input.head? with
  | none => .error .emptyRequest
  | some (.error e) => .error (.ioError e)
  | some (.ok request) =>
    let data := (split_ascii_whitespace request).map rustTrim
    match data with
    | [m, p, v] =>
      if m = "GET" ∧ v = "HTTP/1.1" then .ok ⟨p, m, v⟩
      else .error .invalidHeader
    | _ => .error .invalidLength

/-- A filesystem node: a directory, a regular file with its byte content,
or a symbolic link with an absolute target path. -/
inductive FsNode where
  | dir : FsNode
  | file (content : List Nat) : FsNode
  | symlink (target : List String) : FsNode
deriving DecidableEq

/-- A model filesystem: a finite map from absolute component paths to
nodes, plus the process working directory (used to resolve relative
paths) and a fuel bound for symlink chasing (`realpath` fails with
`ELOOP` past a system bound; any sufficiently large fuel is faithful). -/
structure FS where
  entries : List (List String × FsNode)
  cwd : List String
  fuel : Nat

/-- Look a path up in the filesystem; the root `[]` is always a directory. -/
def FS.lookup (fs : FS) (p : List String) : Option FsNode :=
  if p = [] then some .dir else (fs.entries.find? (fun e => e.1 = p)).map (·.2)

/-- Core of `std::fs::canonicalize` (POSIX `realpath`): walk the components
of `rest`, keeping the already-resolved absolute prefix `acc`.  `.` is
skipped, `..` pops one resolved component, an ordinary component must
exist; a symlink restarts resolution at its (absolute) target followed by
the remaining components.  Fuel bounds symlink chasing. -/
def canonAux (fs : FS) : Nat → List String → List String → Option (List String)
  | 0, _, _ => none
  | _ + 1, acc, [] => if (fs.lookup acc).isSome then some acc else none
  | fuel + 1, acc, c :: rest =>
    if c = "." then canonAux fs fuel acc rest
    else if c = ".." then canonAux fs fuel acc.dropLast rest
    else
      match fs.lookup (acc ++ [c]) with
      | none => none
      | some (.symlink t) => canonAux fs fuel [] (t ++ rest)
      | some _ => canonAux fs fuel (acc ++ [c]) rest

/-- `std::fs::canonicalize` on an absolute component path. -/
def FS.canonicalize (fs : FS) (p : List String) : Option (List String) :=
  canonAux fs fs.fuel [] p

/-- `Path::is_file` applied to an already-canonical path: the node it
names must be a regular file. -/
def FS.isFile (fs : FS) (p : List String) : Bool :=
  match fs.lookup p with
  | some (.file _) => true
  | _ => false

/-- `std::fs::File::open`: fully resolve the path and read the regular
file's bytes; fails if resolution fails or the node is not a file. -/
def FS.openFile (fs : FS) (p : List String) : Option (List Nat) :=
  match fs.canonicalize p with
  | none => none
  | some q =>
    match fs.lookup q with
    | some (.file content) => some content
    | _ => none

/-- `BASE_DIR` from `helpers.rs`. -/
def BASE_DIR : String := "pages"

/-- The `base_dir_relative` binding in `Request::path_exists`:
`PathBuf::from(".")` when `BASE_DIR` is empty, else
`PathBuf::from(BASE_DIR)`. -/
def base_dir_relative : List String :=
  if BASE_DIR = "" then ["."] else [BASE_DIR]

/-- The `base_dir_canonical` binding in `Request::path_exists`:
canonicalize the (relative) base directory against the working
directory. -/
def base_dir_canonical (fs : FS) : Option (List String) :=
  fs.canonicalize (fs.cwd ++ base_dir_relative)

/-- First element of Rust `str::splitn(2, sep)`: the text before the
first occurrence of `sep` (the whole string when `sep` is absent).
`splitn` always yields at least one element, so the `.next().unwrap()`
in the source cannot panic. -/
def splitnTwoFirst (sep : Char) (s : String) : String :=
  String.mk (s.toList.takeWhile (fun c => c ≠ sep))

/-- `Request::normalize_path_string` from `request.rs`: strip everything
from the first `?`, then from the first `#`; split on `/` discarding
empty segments; push `index` and `set_extension("html")` (the pushed
component `index` has no extension, so this yields the single component
`index.html`). -/
def Request.normalize_path_string (raw : String) : Option (List String) :=
  let query_stripped := splitnTwoFirst '?' raw
  let fragment_stripped := splitnTwoFirst '#' query_stripped
  let segs := (strSplit (fun c => c = '/') fragment_stripped).filter (fun e => e ≠ "")
  some (segs ++ ["index.html"])

/-- `Request::path_exists` from `request.rs`, instrumented with the list
of messages printed to the operator's standard error (`eprintln!`).
Canonicalize the base directory (failing closed with an operator
message), normalize the url, join and canonicalize the candidate, require
the canonical base to be a component-wise prefix (`Path::starts_with`),
and finally require a regular file. -/
def Request.pathExistsLog (self : Request) (fs : FS) :
    Option (List String) × List String :=
  match base_dir_canonical fs with
  | none => (none, ["BASE_DIR cannot be canonicalized"])
  | some baseCanon =>
    match Request.normalize_path_string self.url with
    | none => (none, [])
    | some normalized_relative =>
      match fs.canonicalize (baseCanon ++ normalized_relative) with
      | none => (none, [])
      | some path_canonical =>
        if baseCanon.isPrefixOf path_canonical then
          if fs.isFile path_canonical then (some path_canonical, [])
          else (none, [])
        else (none, [])

/-- `Request::path_exists`: the returned value, without the operator log. -/
def Request.path_exists (self : Request) (fs : FS) : Option (List String) :=
  (self.pathExistsLog fs).1

/-- One write to the connection: a header/status-line string, or one body
byte (the body is streamed by `io::copy` after the headers). -/
inductive WEvent where
  | hdr (s : String) : WEvent
  | bodyByte (b : Nat) : WEvent
deriving DecidableEq

/-- The ordered writes performed by `handle_connection` once a file is
open: status line, `Content-Length` (byte length of the file),
`Content-Type`, blank line, then the body bytes. -/
def respWrites (statusTail : String) (content : List Nat) : List WEvent :=
  [.hdr ("HTTP/1.1 " ++ statusTail ++ "\r\n"),
   .hdr ("Content-Length: " ++ toString content.length ++ "\r\n"),
   .hdr "Content-Type: text/html; charset=utf-8\r\n",
   .hdr "\r\n"] ++ content.map .bodyByte

/-- The `full_url` the 404 branch of `handle_connection` opens:
`Path::new(BASE_DIR).join("error404")` with extension set to `html`. -/
def err404_path : List String :=
  if BASE_DIR = "" then ["error404.html"] else [BASE_DIR, "error404.html"]

/-- `handle_connection` from `helpers.rs`: parse the request, resolve the
path, open either the target or the 404 fallback, then write status line,
headers, blank line and body.  The result is the ordered list of writes
that reached the connection and the error, if any, that aborted the
cycle; every failing branch (`?`) fires before the first write. -/
def handle_connection (fs : FS) (input : List (Except String String)) :
    List WEvent × Option RequestError :=
  match Request.new input with
  | .error e => ([], some e)
  | .ok request =>
    match request.path_exists fs with
    | some url =>
      match fs.openFile url with
      | none => ([], some (.ioError "open failed"))
      | some content => (respWrites "200 Ok" content, none)
    | none =>
      match fs.openFile (fs.cwd ++ err404_path) with
      | none => ([], some (.ioError "open failed"))
      | some content => (respWrites "404 NOT FOUND" content, none)

/-- Strip one trailing carriage return, as `BufRead::lines` does after
reading up to a line feed. -/
def stripCR (l : List Char) : List Char :=
  match l.getLast? with
  | some '\r' => l.dropLast
  | _ => l

/-- `BufRead::read_line` seen from the underlying stream: repeatedly
`fill_buf` (pull up to `cap` bytes — the `BufReader` capacity — from the
stream into the buffer), stop at the first buffered line feed.  Returns
the accumulated line (without the line feed) — `none` at immediate
end-of-stream — and the number of bytes consumed from the underlying
stream, i.e. pulled by `fill_buf`, whether or not they belong to the
first line.  `fuel` only guards termination; callers pass more than the
stream length. -/
def readLineChunks (cap : Nat) :
    Nat → List Char → List Char → Nat → Option (List Char) × Nat
  | 0, _, acc, consumed => (some acc, consumed)
  | fuel + 1, stream, acc, consumed =>
    let chunk := stream.take cap
    if chunk.isEmpty then
      (if acc.isEmpty then none else some acc, consumed)
    else
      let pre := chunk.takeWhile (fun c => c ≠ '\n')
      if pre.length < chunk.length then
        (some (acc ++ pre), consumed + chunk.length)
      else
        readLineChunks cap fuel (stream.drop cap) (acc ++ chunk)
          (consumed + chunk.length)

/-- `BufReader::new(stream).lines().next()` with buffer capacity `cap`
(the `BufReader` default is 8192): the first line, decoded and with a
trailing carriage return stripped, together with the number of bytes
consumed from the underlying stream. -/
def linesNext (cap : Nat) (stream : List Char) : Option String × Nat :=
  match readLineChunks cap (stream.length + 1) stream [] 0 with
  | (none, n) => (none, n)
  | (some l, n) => (some (String.mk (stripCR l)), n)

/-- Position one past the first line feed of a stream, i.e. how many bytes
a reader consuming only the request line and its terminator would take. -/
def firstLineEnd (stream : List Char) : Nat :=
  (stream.takeWhile (fun c => c ≠ '\n')).length + 1

/-- The 12-byte content of the sample `pages/index.html`. -/
def indexBytes : List Nat := [60, 112, 62, 104, 101, 108, 108, 111, 60, 47, 112, 62]

/-- The content of the sample `pages/error404.html`. -/
def notFoundBytes : List Nat := [103, 111, 110, 101]

/-- A sample filesystem: working directory `/srv`, base directory
`/srv/pages` containing `index.html` (12 bytes), `error404.html`, a
route `docs/index.html`, and a symlink `out` escaping to `/srv/outdir`. -/
def fsA : FS :=
  { entries :=
      [(["srv"], .dir),
       (["srv", "pages"], .dir),
       (["srv", "pages", "index.html"], .file indexBytes),
       (["srv", "pages", "error404.html"], .file notFoundBytes),
       (["srv", "pages", "docs"], .dir),
       (["srv", "pages", "docs", "index.html"], .file [100, 111, 99, 115]),
       (["srv", "outdir"], .dir),
       (["srv", "outdir", "index.html"], .file [1, 2, 3]),
       (["srv", "pages", "out"], .symlink ["srv", "outdir"]),
       (["srv", "secret.txt"], .file [9, 9, 9])],
    cwd := ["srv"],
    fuel := 32 }

/-- A filesystem on which the base directory does not exist at all. -/
def fsEmpty : FS := { entries := [], cwd := [], fuel := 8 }

/-- A filesystem whose base directory exists but holds no files — in
particular no `error404.html` fallback. -/
def fsNoFallback : FS :=
  { entries := [(["pages"], .dir)], cwd := [], fuel := 8 }

/-- C9: `normalize_path_string` is total — it returns `Some` on every
input string — so the `?` applied to its result in `path_exists` is
unreachable: resolution never fails because of the normalization step. -/
theorem claim_C9 : ∀ raw : String, (Request.normalize_path_string raw).isSome = true := by
  intro raw
  rfl

/-- C10: `Request::new` always returns `Ok` or one of `EmptyRequest`,
`InvalidLength`, `InvalidHeader`, `Io` — the variant `InvalidURL` is never
produced (path-resolution failure surfaces only as `none` from
`path_exists`, whose result type carries no error at all). -/
theorem claim_C10 : ∀ input : List (Except String String),
    (∃ r, Request.new input = .ok r) ∨
    Request.new input = .error .emptyRequest ∨
    Request.new input = .error .invalidLength ∨
    Request.new input = .error .invalidHeader ∨
    ∃ e, Request.new input = .error (.ioError e) := by
  intro input
  match input with
  | [] => exact Or.inr (Or.inl rfl)
  | .error e :: rest => exact Or.inr (Or.inr (Or.inr (Or.inr ⟨e, rfl⟩)))
  | .ok line :: rest =>
    simp only [Request.new, List.head?_cons]
    split
    · split
      · exact Or.inl ⟨_, rfl⟩
      · exact Or.inr (Or.inr (Or.inr (Or.inl rfl)))
    · exact Or.inr (Or.inr (Or.inl rfl))

/-- C3: `Request::new` classifies failures exactly as the spec says: an
empty stream gives `EmptyRequest`; a first line that does not split into
exactly three ASCII-whitespace tokens gives `InvalidLength`; three tokens
whose method is not `GET` or whose version is not `HTTP/1.1` (the method
and version being the trimmed tokens the parser compares and would store)
give `InvalidHeader`. -/
theorem claim_C3 :
    Request.new [] = .error .emptyRequest ∧
    (∀ line rest, (split_ascii_whitespace line).length ≠ 3 →
      Request.new (.ok line :: rest) = .error .invalidLength) ∧
    (∀ line rest m p v,
      (split_ascii_whitespace line).map rustTrim = [m, p, v] →
      ¬(m = "GET" ∧ v = "HTTP/1.1") →
      Request.new (.ok line :: rest) = .error .invalidHeader) := by
  refine ⟨rfl, ?_, ?_⟩
  · intro line rest h
    simp only [Request.new, List.head?_cons]
    split
    · rename_i m p v heq
      have hlen : (split_ascii_whitespace line).length = 3 := by
        have := congrArg List.length heq
        simpa using this
      exact absurd hlen h
    · rfl
  · intro line rest m p v heq h
    simp only [Request.new, List.head?_cons]
    split
    · rename_i m' p' v' heq'
      rw [heq] at heq'
      obtain ⟨rfl, rfl, rfl⟩ : m = m' ∧ p = p' ∧ v = v' := by
        injection heq' with h1 h2
        injection h2 with h2 h3
        injection h3 with h3 _
        exact ⟨h1, h2, h3⟩
      rw [if_neg h]
    · rename_i hno
      exact absurd heq (hno m p v)

/-- C3 witness: the theorem applied at concrete inputs — a two-token line
is `InvalidLength`, a `POST` line is `InvalidHeader`, and the empty stream
is `EmptyRequest`. -/
theorem claim_C3_witness :
    Request.new [] = .error .emptyRequest ∧
    Request.new [.ok "GET /x"] = .error .invalidLength ∧
    Request.new [.ok "POST /x HTTP/1.1"] = .error .invalidHeader :=
  ⟨claim_C3.1,
   claim_C3.2.1 "GET /x" [] (by decide),
   claim_C3.2.2 "POST /x HTTP/1.1" [] "POST" "/x" "HTTP/1.1" (by decide) (by decide)⟩

/-- C2 counterexample: the request line `GET \u00A0/x HTTP/1.1` (the
middle token starting with a non-breaking space, U+00A0, which is not
ASCII whitespace) has exactly three ASCII-whitespace-separated tokens
with first token `GET` and third `HTTP/1.1`, yet the constructed
`Request` stores `/x`, not the middle token `\u00A0/x` unmodified: the
parser trims Unicode whitespace from every token. -/
theorem claim_C2_counterexample :
    split_ascii_whitespace "GET \u00A0/x HTTP/1.1" = ["GET", "\u00A0/x", "HTTP/1.1"] ∧
    Request.new [.ok "GET \u00A0/x HTTP/1.1"] = .ok ⟨"/x", "GET", "HTTP/1.1"⟩ ∧
    ("/x" : String) ≠ "\u00A0/x" := by
  refine ⟨by decide, by decide, by decide⟩

/-- C2 as amended: for every request line of exactly three
ASCII-whitespace-separated tokens with first token `GET` and third
`HTTP/1.1`, `Request::new` succeeds with method `GET` and version
`HTTP/1.1`, and stores the middle token with leading and trailing
Unicode whitespace trimmed (`str::trim`) — hence unmodified (query
string and fragment included) whenever the token has no leading or
trailing Unicode whitespace. -/
theorem claim_C2 : ∀ (line : String) rest p,
    split_ascii_whitespace line = ["GET", p, "HTTP/1.1"] →
    Request.new (.ok line :: rest) = .ok ⟨rustTrim p, "GET", "HTTP/1.1"⟩ := by
  intro line rest p heq
  have hdata : (split_ascii_whitespace line).map rustTrim
      = ["GET", rustTrim p, "HTTP/1.1"] := by
    rw [heq]
    simp only [List.map]
    refine congrArg₂ _ (by decide) (congrArg _ (congrArg₂ _ rfl (by decide)))
  simp only [Request.new, List.head?_cons]
  split
  · rename_i m' p' v' heq'
    rw [hdata] at heq'
    obtain ⟨rfl, rfl, rfl⟩ : "GET" = m' ∧ rustTrim p = p' ∧ "HTTP/1.1" = v' := by
      injection heq' with h1 h2
      injection h2 with h2 h3
      injection h3 with h3 _
      exact ⟨h1, h2, h3⟩
    rw [if_pos ⟨rfl, rfl⟩]
  · rename_i hno
    exact absurd hdata (hno "GET" (rustTrim p) "HTTP/1.1")

/-- C2 witness: the amended theorem applied at the concrete request line
`GET /docs?x=1#top HTTP/1.1`, whose middle token has no surrounding
Unicode whitespace and is therefore stored unmodified, query string and
fragment included. -/
theorem claim_C2_witness :
    Request.new [.ok "GET /docs?x=1#top HTTP/1.1"]
      = .ok ⟨"/docs?x=1#top", "GET", "HTTP/1.1"⟩ := by
  have h := claim_C2 "GET /docs?x=1#top HTTP/1.1" [] "/docs?x=1#top" (by decide)
  rw [h]
  refine congrArg _ (congrArg₂ _ ?_ rfl)
  decide

/-- C4: path resolution depends only on the url through
`normalize_path_string`, i.e. only on the non-empty `/`-segments before
the first `?` or `#`; `/docs` and `/docs/` normalize identically (hence
resolve to the same target on every filesystem), `/docs?x=1#top`
normalizes identically to `/docs`, and both `/` and the empty path
normalize to the single candidate component `index.html` under the base
directory. -/
theorem claim_C4 :
    (∀ (fs : FS) m v u1 u2,
      Request.normalize_path_string u1 = Request.normalize_path_string u2 →
      Request.path_exists ⟨u1, m, v⟩ fs = Request.path_exists ⟨u2, m, v⟩ fs) ∧
    Request.normalize_path_string "/docs" = Request.normalize_path_string "/docs/" ∧
    Request.normalize_path_string "/docs?x=1#top" = Request.normalize_path_string "/docs" ∧
    Request.normalize_path_string "/" = Request.normalize_path_string "" ∧
    Request.normalize_path_string "" = some ["index.html"] := by
  refine ⟨?_, by decide, by decide, by decide, by decide⟩
  intro fs m v u1 u2 h
  simp only [Request.path_exists, Request.pathExistsLog, h]

/-- C4 witness: the congruence applied to the concrete urls `/docs` and
`/docs/` on the sample filesystem, where both resolve to the same
existing target `/srv/pages/docs/index.html`. -/
theorem claim_C4_witness :
    Request.path_exists ⟨"/docs", "GET", "HTTP/1.1"⟩ fsA
      = Request.path_exists ⟨"/docs/", "GET", "HTTP/1.1"⟩ fsA ∧
    Request.path_exists ⟨"/docs", "GET", "HTTP/1.1"⟩ fsA
      = some ["srv", "pages", "docs", "index.html"] :=
  ⟨claim_C4.1 fsA "GET" "HTTP/1.1" "/docs" "/docs/" (by decide), by decide⟩

/-- C7: when canonicalization of the base directory fails, `path_exists`
fails closed — it returns `None` (the caller then takes the 404 branch)
and the failure is reported on the operator's standard error, never in
the value handed to response writing. -/
theorem claim_C7 : ∀ (fs : FS) (r : Request), base_dir_canonical fs = none →
    r.path_exists fs = none ∧
    (r.pathExistsLog fs).2 = ["BASE_DIR cannot be canonicalized"] := by
  intro fs r h
  constructor
  · simp only [Request.path_exists, Request.pathExistsLog, h]
  · simp only [Request.pathExistsLog, h]

/-- C7 witness: on the filesystem with no `pages` directory at all, base
canonicalization fails, `path_exists` returns `None`, and the operator
message is emitted. -/
theorem claim_C7_witness :
    base_dir_canonical fsEmpty = none ∧
    Request.path_exists ⟨"/", "GET", "HTTP/1.1"⟩ fsEmpty = none ∧
    (Request.pathExistsLog ⟨"/", "GET", "HTTP/1.1"⟩ fsEmpty).2
      = ["BASE_DIR cannot be canonicalized"] :=
  ⟨by decide,
   (claim_C7 fsEmpty ⟨"/", "GET", "HTTP/1.1"⟩ (by decide)).1,
   (claim_C7 fsEmpty ⟨"/", "GET", "HTTP/1.1"⟩ (by decide)).2⟩

/-- A prefix of `l ++ [a]` is all of it or a prefix of `l`. -/
theorem prefix_snoc_cases {α : Type} {q l : List α} {a : α}
    (h : q <+: l ++ [a]) : q = l ++ [a] ∨ q <+: l := by
  obtain ⟨t, ht⟩ := h
  rcases List.eq_nil_or_concat t with rfl | ⟨t', b, rfl⟩
  · left; simpa using ht
  · right
    rw [List.concat_eq_append, ← List.append_assoc] at ht
    have := congrArg List.dropLast ht
    rw [List.dropLast_concat, List.dropLast_concat] at this
    exact ⟨t', this⟩

/-- The invariant canonical paths satisfy: every non-empty prefix names an
existing, non-symlink node, and no component is `.` or `..`. -/
def goodPath (fs : FS) (p : List String) : Prop :=
  (∀ q, q ≠ [] → q <+: p →
    ∃ n, fs.lookup q = some n ∧ ∀ t, n ≠ FsNode.symlink t) ∧
  ∀ c ∈ p, c ≠ "." ∧ c ≠ ".."

theorem goodPath_nil (fs : FS) : goodPath fs [] :=
  ⟨fun q hq hpre => absurd (List.eq_nil_of_prefix_nil hpre) hq, by simp⟩

/-- Resolution only produces paths satisfying the canonical-path
invariant, whatever the starting components, as long as the accumulated
resolved prefix does. -/
theorem canonAux_good (fs : FS) : ∀ fuel acc rest p,
    canonAux fs fuel acc rest = some p → goodPath fs acc → goodPath fs p := by
  intro fuel
  induction fuel with
  | zero => intro acc rest p h hg; exact absurd h (by simp [canonAux])
  | succ f ih =>
    intro acc rest p h hg
    match rest with
    | [] =>
      simp only [canonAux] at h
      split at h
      · cases h; exact hg
      · cases h
    | c :: rest' =>
      simp only [canonAux] at h
      by_cases hdot : c = "."
      · rw [if_pos hdot] at h
        exact ih _ _ _ h hg
      · rw [if_neg hdot] at h
        by_cases hdd : c = ".."
        · rw [if_pos hdd] at h
          refine ih _ _ _ h ⟨?_, ?_⟩
          · intro q hq hpre
            exact hg.1 q hq (hpre.trans (List.dropLast_prefix acc))
          · intro x hx
            exact hg.2 x (List.dropLast_subset acc hx)
        · rw [if_neg hdd] at h
          split at h
          · cases h
          · exact ih _ _ _ h (goodPath_nil fs)
          · rename_i n hexc hlook
            refine ih _ _ _ h ⟨?_, ?_⟩
            · intro q hq hpre
              rcases prefix_snoc_cases hpre with rfl | hpre'
              · exact ⟨n, hlook, hexc⟩
              · exact hg.1 q hq hpre'
            · intro x hx
              rcases List.mem_append.mp hx with hx' | hx'
              · exact hg.2 x hx'
              · have : x = c := by simpa using hx'
                subst this
                exact ⟨hdot, hdd⟩

/-- A successful resolution yields a path shorter than the fuel spent
(plus the resolved prefix carried in). -/
theorem canonAux_fuel (fs : FS) : ∀ fuel acc rest p,
    canonAux fs fuel acc rest = some p → p.length < fuel + acc.length := by
  intro fuel
  induction fuel with
  | zero => intro acc rest p h; exact absurd h (by simp [canonAux])
  | succ f ih =>
    intro acc rest p h
    match rest with
    | [] =>
      simp only [canonAux] at h
      split at h
      · cases h; omega
      · cases h
    | c :: rest' =>
      simp only [canonAux] at h
      by_cases hdot : c = "."
      · rw [if_pos hdot] at h
        have := ih _ _ _ h
        omega
      · rw [if_neg hdot] at h
        by_cases hdd : c = ".."
        · rw [if_pos hdd] at h
          have := ih _ _ _ h
          have hd : acc.dropLast.length = acc.length - 1 := List.length_dropLast acc
          omega
        · rw [if_neg hdd] at h
          split at h
          · cases h
          · have := ih _ _ _ h
            simp only [List.length_nil] at this
            omega
          · have := ih _ _ _ h
            simp only [List.length_append, List.length_cons, List.length_nil] at this
            omega

/-- On a path satisfying the canonical-path invariant, resolution is the
identity (given enough fuel): no component is `.` or `..`, every prefix
exists and is no symlink, so the walk just replays the components. -/
theorem canonAux_of_good (fs : FS) : ∀ rest acc fuel,
    goodPath fs (acc ++ rest) → rest.length < fuel →
    canonAux fs fuel acc rest = some (acc ++ rest) := by
  intro rest
  induction rest with
  | nil =>
    intro acc fuel hg hf
    match fuel, hf with
    | f + 1, _ =>
      simp only [canonAux, List.append_nil]
      rw [if_pos]
      by_cases hacc : acc = []
      · subst hacc; simp [FS.lookup]
      · obtain ⟨n, hn, -⟩ := hg.1 acc hacc (by simp)
        simp [hn]
  | cons c rest' ih =>
    intro acc fuel hg hf
    match fuel, hf with
    | f + 1, hf =>
      simp only [canonAux]
      have hc : c ≠ "." ∧ c ≠ ".." := hg.2 c (by simp)
      rw [if_neg hc.1, if_neg hc.2]
      obtain ⟨n, hn, hns⟩ := hg.1 (acc ++ [c]) (by simp)
        ⟨rest', by simp⟩
      rw [hn]
      have hrec : canonAux fs f (acc ++ [c]) rest' = some ((acc ++ [c]) ++ rest') := by
        refine ih (acc ++ [c]) f ?_ ?_
        · have : (acc ++ [c]) ++ rest' = acc ++ c :: rest' := by simp
          rw [this]; exact hg
        · simpa using Nat.lt_of_succ_lt_succ hf
      match n, hns with
      | .dir, _ =>
        rw [hrec]
        simp
      | .file cont, _ =>
        rw [hrec]
        simp
      | .symlink t, hns =>
        exact absurd rfl (hns t)

/-- Canonicalization is idempotent on its own outputs: whatever the
input, a successfully canonicalized path canonicalizes to itself. -/
theorem canonicalize_idem (fs : FS) (q p : List String)
    (h : fs.canonicalize q = some p) : fs.canonicalize p = some p := by
  have hg : goodPath fs p := canonAux_good fs fs.fuel [] q p h (goodPath_nil fs)
  have hf : p.length < fs.fuel := by
    have := canonAux_fuel fs fs.fuel [] q p h
    simpa using this
  have := canonAux_of_good fs p [] fs.fuel (by simpa using hg) hf
  simpa [FS.canonicalize] using this

/-- C1: whenever `path_exists` returns `Some p`, the path `p` is canonical
(it canonicalizes to itself), is a regular file, and has the canonical
base directory as a component-wise prefix; and whenever the candidate
built from the request path — for instance one whose `..` segments or
symlinks resolve outside the base directory — canonicalizes to a path
that does not have the canonical base as a prefix, `path_exists` returns
`None`. -/
theorem claim_C1 :
    (∀ (fs : FS) (r : Request) p, r.path_exists fs = some p →
      fs.canonicalize p = some p ∧ fs.isFile p = true ∧
      ∃ b, base_dir_canonical fs = some b ∧ b.isPrefixOf p = true) ∧
    (∀ (fs : FS) (r : Request) b rel pc,
      base_dir_canonical fs = some b →
      Request.normalize_path_string r.url = some rel →
      fs.canonicalize (b ++ rel) = some pc →
      b.isPrefixOf pc = false →
      r.path_exists fs = none) := by
  constructor
  · intro fs r p h
    unfold Request.path_exists Request.pathExistsLog at h
    split at h
    · simp at h
    · rename_i baseCanon hbase
      split at h
      · simp at h
      · rename_i rel hrel
        split at h
        · simp at h
        · rename_i pc hpc
          split at h
          · rename_i hpre
            split at h
            · rename_i hfile
              simp only at h
              cases h
              exact ⟨canonicalize_idem fs _ _ hpc, hfile, baseCanon, hbase, hpre⟩
            · simp at h
          · simp at h
  · intro fs r b rel pc hbase hrel hpc hpre
    simp only [Request.path_exists, Request.pathExistsLog, hbase, hrel, hpc, hpre]
    simp

/-- C1 witness: on the sample filesystem, `GET /` resolves to the
confined canonical file `/srv/pages/index.html` (canonical, a regular
file, under the canonical base `/srv/pages`), while `/out`, whose
candidate resolves through a symlink to `/srv/outdir/index.html` outside
the base directory, yields `None`. -/
theorem claim_C1_witness :
    Request.path_exists ⟨"/", "GET", "HTTP/1.1"⟩ fsA
      = some ["srv", "pages", "index.html"] ∧
    fsA.canonicalize ["srv", "pages", "index.html"]
      = some ["srv", "pages", "index.html"] ∧
    fsA.isFile ["srv", "pages", "index.html"] = true ∧
    Request.path_exists ⟨"/out", "GET", "HTTP/1.1"⟩ fsA = none :=
  ⟨by decide,
   (claim_C1.1 fsA ⟨"/", "GET", "HTTP/1.1"⟩ ["srv", "pages", "index.html"]
     (by decide)).1,
   (claim_C1.1 fsA ⟨"/", "GET", "HTTP/1.1"⟩ ["srv", "pages", "index.html"]
     (by decide)).2.1,
   claim_C1.2 fsA ⟨"/out", "GET", "HTTP/1.1"⟩ ["srv", "pages"]
     ["out", "index.html"] ["srv", "outdir", "index.html"]
     (by decide) (by decide) (by decide) (by decide)⟩

/-- C5: when path resolution succeeds (and the resolved file opens),
`handle_connection` writes exactly the status line `HTTP/1.1 200 Ok`, a
`Content-Length` header equal to the served file's length in bytes, the
`Content-Type` header and the blank-line terminator — in that order,
all before any body byte — followed by the file's bytes. -/
theorem claim_C5 : ∀ (fs : FS) input request url content,
    Request.new input = .ok request →
    request.path_exists fs = some url →
    fs.openFile url = some content →
    handle_connection fs input =
      ([.hdr "HTTP/1.1 200 Ok\r\n",
        .hdr ("Content-Length: " ++ toString content.length ++ "\r\n"),
        .hdr "Content-Type: text/html; charset=utf-8\r\n",
        .hdr "\r\n"] ++ content.map .bodyByte, none) := by
  intro fs input request url content hreq hurl hopen
  simp only [handle_connection, hreq, hurl, hopen, respWrites]
  rfl

/-- C5 witness: on the sample filesystem, `GET / HTTP/1.1` against the
12-byte `pages/index.html` produces the `200 Ok` response with
`Content-Length: 12` and the headers all ahead of the body bytes. -/
theorem claim_C5_witness :
    handle_connection fsA [.ok "GET / HTTP/1.1"] =
      ([.hdr "HTTP/1.1 200 Ok\r\n",
        .hdr ("Content-Length: " ++ toString indexBytes.length ++ "\r\n"),
        .hdr "Content-Type: text/html; charset=utf-8\r\n",
        .hdr "\r\n"] ++ indexBytes.map .bodyByte, none) ∧
    indexBytes.length = 12 :=
  ⟨claim_C5 fsA [.ok "GET / HTTP/1.1"] ⟨"/", "GET", "HTTP/1.1"⟩
     ["srv", "pages", "index.html"] indexBytes (by decide) (by decide) (by decide),
   by decide⟩

/-- C6: when `path_exists` returns `None`, `handle_connection` serves the
`404 NOT FOUND` status with the body of `{BASE_DIR}/error404.html`; if
that fallback cannot be opened, it returns an error having written
nothing at all to the connection. -/
theorem claim_C6 : ∀ (fs : FS) input request,
    Request.new input = .ok request →
    request.path_exists fs = none →
    handle_connection fs input =
      (match fs.openFile (fs.cwd ++ err404_path) with
       | some content => (respWrites "404 NOT FOUND" content, none)
       | none => ([], some (.ioError "open failed"))) := by
  intro fs input request hreq hurl
  simp only [handle_connection, hreq, hurl]
  split
  · rename_i hopen
    rw [hopen]
  · rename_i content hopen
    rw [hopen]

/-- C6 witness: the traversal request `GET /../../etc/passwd HTTP/1.1`
resolves to `None` on the sample filesystem and is answered with the 404
page, never `/etc/passwd`; on the filesystem lacking the fallback file,
the same 404 branch aborts with an error and zero write events. -/
theorem claim_C6_witness :
    handle_connection fsA [.ok "GET /../../etc/passwd HTTP/1.1"] =
      (respWrites "404 NOT FOUND" notFoundBytes, none) ∧
    handle_connection fsNoFallback [.ok "GET / HTTP/1.1"] =
      ([], some (.ioError "open failed")) := by
  constructor
  · have h := claim_C6 fsA [.ok "GET /../../etc/passwd HTTP/1.1"]
      ⟨"/../../etc/passwd", "GET", "HTTP/1.1"⟩ (by decide) (by decide)
    rw [h]
    decide
  · have h := claim_C6 fsNoFallback [.ok "GET / HTTP/1.1"]
      ⟨"/", "GET", "HTTP/1.1"⟩ (by decide) (by decide)
    rw [h]
    decide

/-- `takeWhile` of not-newline stops exactly at the first newline. -/
theorem takeWhile_stops_at_newline : ∀ (pre xs : List Char), '\n' ∉ pre →
    (pre ++ '\n' :: xs).takeWhile (fun c => c ≠ '\n') = pre := by
  intro pre
  induction pre with
  | nil => intro xs h; simp [List.takeWhile]
  | cons a l ih =>
    intro xs h
    have ha : a ≠ '\n' := fun hh => h (by simp [hh])
    simp only [List.cons_append, List.takeWhile_cons]
    rw [if_pos (by simpa using ha)]
    rw [ih xs (fun hm => h (List.mem_cons_of_mem a hm))]

/-- C8 counterexample: with the default 8192-byte `BufReader` capacity, a
client sending the whole request (request line, headers, blank line — 27
bytes) at once has all 27 bytes consumed from the stream by the line
reader, although the first line terminator ends at byte 16: the reader
buffers, then discards, bytes of subsequent lines it was not asked to
read. -/
theorem claim_C8_counterexample :
    linesNext 8192 ("GET / HTTP/1.1\r\nHost: x\r\n\r\n".toList)
      = (some "GET / HTTP/1.1", 27) ∧
    firstLineEnd ("GET / HTTP/1.4".toList) = 15 ∧
    firstLineEnd ("GET / HTTP/1.1\r\nHost: x\r\n\r\n".toList) = 16 ∧
    (27 : Nat) ≠ 16 := by
  refine ⟨by decide, by decide, by decide, by decide⟩

/-- C8 as amended: the line reader returns exactly the first line (the
bytes before the first line feed, a trailing carriage return stripped),
but consumes from the connection stream min(capacity, available) bytes —
one full `fill_buf` — not only the bytes up to and including the first
line terminator; the surplus is buffered and discarded, which is
unobservable here because no later stage reads the stream. -/
theorem claim_C8 : ∀ (cap : Nat) (pre rest : List Char), '\n' ∉ pre →
    pre.length < cap →
    linesNext cap (pre ++ '\n' :: rest)
      = (some (String.mk (stripCR pre)), min cap (pre ++ '\n' :: rest).length) := by
  intro cap pre rest hmem hlen
  obtain ⟨k, hk⟩ : ∃ k, cap - pre.length = k + 1 := ⟨cap - pre.length - 1, by omega⟩
  have hchunk : (pre ++ '\n' :: rest).take cap = pre ++ '\n' :: rest.take k := by
    rw [List.take_append_eq_append_take, List.take_of_length_le (le_of_lt hlen), hk,
      List.take_succ_cons]
  have hmin : (pre ++ '\n' :: rest.take k).length
      = min cap (pre ++ '\n' :: rest).length := by
    have := List.length_take cap (pre ++ '\n' :: rest)
    rw [hchunk] at this
    exact this
  simp only [linesNext, readLineChunks, hchunk]
  rw [takeWhile_stops_at_newline pre _ hmem]
  have hne : (pre ++ '\n' :: rest.take k).isEmpty = false := by
    cases pre <;> simp [List.isEmpty]
  rw [hne]
  simp only [Bool.false_eq_true, if_false]
  rw [if_pos (by simp)]
  simp only [List.nil_append, Nat.zero_add, hmin]

/-- C8 witness: the amended theorem applied to the concrete stream
`GET / HTTP/1.1\r\nHost: x\r\n\r\n` with the default capacity 8192. -/
theorem claim_C8_witness :
    linesNext 8192 ("GET / HTTP/1.1\r".toList ++ '\n' :: "Host: x\r\n\r\n".toList)
      = (some (String.mk (stripCR "GET / HTTP/1.1\r".toList)),
         min 8192 ("GET / HTTP/1.1\r".toList ++ '\n' :: "Host: x\r\n\r\n".toList).length) :=
  claim_C8 8192 "GET / HTTP/1.1\r".toList "Host: x\r\n\r\n".toList
    (by decide) (by decide)
